import Mathlib

/-!
Verification of the revisioned-read core: the `RemoteClockRevisions`
consistency controller (remote-clock revision quantization, caching and
validation) and the mysql revisioned reader (namespace reads).

Times and revisions are modelled as integer nanosecond counts; the Go
`decimal.Decimal` revisions are used only through `IntPart()`, so an `Int`
payload is faithful. Go's `%` on `int64` is truncated (T-)division, which is
`Int.tmod` in Lean. The backend clock function is modelled as a function
`Unit → Except String Revision`; each controller operation also reports how
many times it invoked the clock. The receiver mutation of the two cache
fields is modelled by returning an updated `RemoteClockRevisions` value.
-/

namespace SpiceDB

/-- A datastore revision: either the distinguished `NoRevision` sentinel, a
remote-clock value (nanoseconds, `decimal` in Go, used via `IntPart`), or a
transaction-id revision (`revisions.NewForTransactionID`). -/
inductive Revision where
  | noRevision
  | clockNanos (n : Int)
  | forTransactionID (id : Nat)
  deriving DecidableEq, Repr

/-- `IntPart()` of the decimal backing a revision. -/
def Revision.intPart : Revision → Int
  | .noRevision => 0
  | .clockNanos n => n
  | .forTransactionID id => (id : Int)

/-- The `RemoteClockRevisions` struct: construction-time configuration plus
the two mutable cache fields (`lastQuantizedRevision`, stored as the integer
value of the cached decimal, and `revisionValidThrough`, a local wall-clock
instant in nanoseconds). -/
structure RemoteClockRevisions where
  QuantizationNanos : Int
  GCWindowNanos : Int
  FollowerReadDelayNanos : Int
  MaxRevisionStaleness : Int
  lastQuantizedRevision : Int
  revisionValidThrough : Int
  deriving DecidableEq, Repr

/-- Reason codes carried by `NewInvalidRevisionErr`. -/
inductive InvalidRevisionReason where
  | revisionStale
  | revisionInFuture
  deriving DecidableEq, Repr

/-- Errors returned by `CheckRevision`: a propagated clock-fetch error or an
invalid-revision classification. -/
inductive CheckErr where
  | clock (e : String)
  | invalidRevision (r : Revision) (reason : InvalidRevisionReason)
  deriving DecidableEq, Repr

/-- `RemoteClockRevisions.OptimizedRevision`. Returns the Go result pair
`(revision, error)`, the controller state after the call, and the number of
times the backend clock function `nowFunc` was invoked. -/
def RemoteClockRevisions.OptimizedRevision (rcr : RemoteClockRevisions)
    (localNow : Int) (nowFunc : Unit → Except String Revision) :
    (Revision × Option String) × RemoteClockRevisions × Nat :=
  if localNow < rcr.revisionValidThrough then
    ((.clockNanos rcr.lastQuantizedRevision, none), rcr, 0)
  else
    match nowFunc () with
    | .error e => ((.noRevision, some e), rcr, 1)
    | .ok nowHLC =>
      let crdbNow := nowHLC.intPart - rcr.FollowerReadDelayNanos
      let quantized :=
        if 0 < rcr.QuantizationNanos then
          crdbNow - Int.tmod crdbNow rcr.QuantizationNanos
        else crdbNow
      let validForNanos := (quantized + rcr.QuantizationNanos) - crdbNow
      let rcr2 := { rcr with
        revisionValidThrough := localNow + validForNanos + rcr.MaxRevisionStaleness,
        lastQuantizedRevision := quantized }
      ((.clockNanos quantized, none), rcr2, 1)

/-- `RemoteClockRevisions.CheckRevision`. Returns the Go `error` result
(`none` on success), the controller state after the call, and the number of
clock invocations. -/
def RemoteClockRevisions.CheckRevision (rcr : RemoteClockRevisions)
    (nowFunc : Unit → Except String Revision) (revision : Revision) :
    Option CheckErr × RemoteClockRevisions × Nat :=
  match nowFunc () with
  | .error e => (some (.clock e), rcr, 1)
  | .ok now =>
    let nowNanos := now.intPart
    let revisionNanos := revision.intPart
    if revisionNanos < nowNanos - rcr.GCWindowNanos then
      (some (.invalidRevision revision .revisionStale), rcr, 1)
    else if nowNanos < revisionNanos then
      (some (.invalidRevision revision .revisionInFuture), rcr, 1)
    else
      (none, rcr, 1)

/-!
Embedding of the mysql revisioned reader (`reader.go`), namespace read paths.
The backend is abstracted: transaction acquisition is an
`Except String Unit`, SQL text generation (`ToSql`) an `Option String`
failure, a single-row query a `RowQueryOutcome`, and a multi-row query a list
of per-row outcomes plus an optional terminal iteration error (`rows.Err()`).
The opaque namespace payload codec (`UnmarshalVT`) is a parameter
`unmarshal : List Nat → Except String NsDef` over an arbitrary definition
type `NsDef`, with payload bytes as `List Nat`.
-/

/-- Error values crossing the reader boundary. `wrapped op inner` models
`fmt.Errorf(op+": %w", inner)`. -/
inductive ReaderErr where
  | namespaceNotFound (nsName : String)
  | backend (msg : String)
  | decodeFailure (msg : String)
  | wrapped (op : String) (inner : ReaderErr)
  deriving DecidableEq, Repr

/-- `errUnableToReadConfig = "unable to read namespace config: %w"`. -/
def errUnableToReadConfig : String := "unable to read namespace config"

/-- `errUnableToListNamespaces = "unable to list namespaces: %w"`. -/
def errUnableToListNamespaces : String := "unable to list namespaces"

/-- `datastore.RevisionedNamespace`: a decoded namespace definition paired
with the revision at which it was last written. -/
structure RevisionedNamespace (NsDef : Type) where
  Definition : NsDef
  LastWrittenRevision : Revision
  deriving DecidableEq, Repr

/-- Outcome of the single-row query in `loadNamespace`:
`QueryRowContext(...).Scan` either reports `sql.ErrNoRows`, yields one row
(config bytes and transaction id), or fails with a backend error. -/
inductive RowQueryOutcome where
  | noRows
  | row (config : List Nat) (txID : Nat)
  | failure (msg : String)
  deriving DecidableEq, Repr

/-- One delivered row of a multi-row cursor: either the scanned columns or a
`rows.Scan` failure. -/
inductive RowOutcome where
  | row (config : List Nat) (txID : Nat)
  | scanFailure (msg : String)
  deriving DecidableEq, Repr

/-- A squirrel predicate attached via `Where`: an equality test on the
namespace column, or a disjunction (`sq.Or`) of predicates. -/
inductive Pred where
  | eqNamespace (nsName : String)
  | orClause (ps : List Pred)

/-- `loadNamespace`: build the single-row query (`ToSql` may fail), scan the
row, classify `sql.ErrNoRows` as `NamespaceNotFound`, decode the payload, and
convert the row's transaction id into a revision. All errors are returned
unwrapped here; the caller adds context. -/
def loadNamespace {NsDef : Type} (nsName : String) (toSqlErr : Option String)
    (outcome : RowQueryOutcome) (unmarshal : List Nat → Except String NsDef) :
    Except ReaderErr (NsDef × Revision) :=
  match toSqlErr with
  | some e => .error (.backend e)
  | none =>
    match outcome with
    | .failure msg => .error (.backend msg)
    | .noRows => .error (.namespaceNotFound nsName)
    | .row config txID =>
      match unmarshal config with
      | .error msg => .error (.decodeFailure msg)
      | .ok loaded => .ok (loaded, .forTransactionID txID)

/-- `mysqlReader.ReadNamespaceByName`: acquire a transaction (failure is
wrapped with `errUnableToReadConfig`), run `loadNamespace`, pass a
`NamespaceNotFound` error through unwrapped, wrap any other error with
`errUnableToReadConfig`. Returns the Go triple `(definition, revision,
error)` with the definition as an `Option` (Go `nil`). -/
def ReadNamespaceByName {NsDef : Type} (nsName : String)
    (txSource : Except String Unit) (toSqlErr : Option String)
    (outcome : RowQueryOutcome) (unmarshal : List Nat → Except String NsDef) :
    Option NsDef × Revision × Option ReaderErr :=
  match txSource with
  | .error e => (none, .noRevision, some (.wrapped errUnableToReadConfig (.backend e)))
  | .ok _ =>
    match loadNamespace nsName toSqlErr outcome unmarshal with
    | .error (.namespaceNotFound n) => (none, .noRevision, some (.namespaceNotFound n))
    | .error err => (none, .noRevision, some (.wrapped errUnableToReadConfig err))
    | .ok (loaded, version) => (some loaded, version, none)

/-- The row loop of `loadAllNamespaces`: scan each row (aborting with the raw
scan error), decode its payload (aborting with the decode error wrapped with
`errUnableToReadConfig`), and accumulate one `RevisionedNamespace` per row in
delivery order, the revision converted from the row's transaction id. -/
def loadAllNamespacesLoop {NsDef : Type}
    (unmarshal : List Nat → Except String NsDef) :
    List RowOutcome → Except ReaderErr (List (RevisionedNamespace NsDef))
  | [] => .ok []
  | .scanFailure msg :: _ => .error (.backend msg)
  | .row config txID :: rest =>
    match unmarshal config with
    | .error msg => .error (.wrapped errUnableToReadConfig (.decodeFailure msg))
    | .ok loaded =>
      match loadAllNamespacesLoop unmarshal rest with
      | .error e => .error e
      | .ok defs =>
        .ok ({ Definition := loaded, LastWrittenRevision := .forTransactionID txID } :: defs)

/-- `loadAllNamespaces`: `ToSql`, execute the multi-row query, run the row
loop, and finally surface `rows.Err()` (checked only when the loop completed
without aborting). Errors are returned unwrapped here; callers add context.
The query result carries the delivered rows and the terminal iteration
error. -/
def loadAllNamespaces {NsDef : Type} (toSqlErr : Option String)
    (queryRes : Except String (List RowOutcome × Option String))
    (unmarshal : List Nat → Except String NsDef) :
    Except ReaderErr (List (RevisionedNamespace NsDef)) :=
  match toSqlErr with
  | some e => .error (.backend e)
  | none =>
    match queryRes with
    | .error e => .error (.backend e)
    | .ok (rows, iterErr) =>
      match loadAllNamespacesLoop unmarshal rows with
      | .error e => .error e
      | .ok defs =>
        match iterErr with
        | some e => .error (.backend e)
        | none => .ok defs

/-- `mysqlReader.ListAllNamespaces`: acquire a transaction (failure returned
raw), run `loadAllNamespaces`, and wrap any of its errors with
`errUnableToListNamespaces`. -/
def ListAllNamespaces {NsDef : Type} (txSource : Except String Unit)
    (toSqlErr : Option String)
    (queryRes : Except String (List RowOutcome × Option String))
    (unmarshal : List Nat → Except String NsDef) :
    Except ReaderErr (List (RevisionedNamespace NsDef)) :=
  match txSource with
  | .error e => .error (.backend e)
  | .ok _ =>
    match loadAllNamespaces toSqlErr queryRes unmarshal with
    | .error e => .error (.wrapped errUnableToListNamespaces e)
    | .ok defs => .ok defs

/-- `mysqlReader.LookupNamespacesWithNames`: on an empty name list return
`(nil, nil)` immediately; otherwise acquire a transaction (failure returned
raw), build `sq.Or` of one namespace-equality predicate per name, attach it
with `Where`, and proceed as `loadAllNamespaces` with errors wrapped with
`errUnableToListNamespaces`. Besides the Go result, the model reports the
number of transactions acquired, the number of queries executed, and the
predicate attached to the executed query (if any); the rows returned by the
backend are a function `runQuery` of that predicate. -/
def LookupNamespacesWithNames {NsDef : Type} (nsNames : List String)
    (txSource : Except String Unit) (toSqlErr : Option String)
    (runQuery : Pred → Except String (List RowOutcome × Option String))
    (unmarshal : List Nat → Except String NsDef) :
    Except ReaderErr (List (RevisionedNamespace NsDef)) × Nat × Nat × Option Pred :=
  if nsNames.length = 0 then
    (.ok [], 0, 0, none)
  else
    match txSource with
    | .error e => (.error (.backend e), 1, 0, none)
    | .ok _ =>
      let clause := Pred.orClause (nsNames.map Pred.eqNamespace)
      let queriesExecuted := match toSqlErr with
        | some _ => 0
        | none => 1
      match loadAllNamespaces toSqlErr (runQuery clause) unmarshal with
      | .error e =>
        (.error (.wrapped errUnableToListNamespaces e), 1, queriesExecuted, some clause)
      | .ok defs => (.ok defs, 1, queriesExecuted, some clause)

/-! Helper facts about truncated remainder, used for the quantization
claims. `Int.tmod` is the semantics of the Go `%` operator on `int64`. -/

/-- The truncated remainder is strictly greater than `-b` for positive `b`,
for every dividend sign. -/
lemma tmod_gt_neg (a : Int) {b : Int} (hb : 0 < b) : -b < Int.tmod a b := by
  rcases le_or_lt 0 a with ha | ha
  · have h := Int.tmod_nonneg b ha
    omega
  · have h1 : Int.tmod (-a) b < b := Int.tmod_lt_of_pos (-a) hb
    have h2 : Int.tmod (-a) b = -Int.tmod a b := by
      rw [Int.tmod_def, Int.tmod_def, Int.neg_tdiv]
      ring
    omega

/-- Subtracting the truncated remainder lands on a multiple of the divisor. -/
lemma sub_tmod_dvd (a b : Int) : b ∣ (a - Int.tmod a b) :=
  ⟨a.tdiv b, by rw [Int.tmod_def]; ring⟩

/-- Any multiple of `b` that is at most `a` is at most `a - a.tmod b`. -/
lemma quant_greatest {a b m : Int} (hb : 0 < b) (hm : b ∣ m) (hma : m ≤ a) :
    m ≤ a - Int.tmod a b := by
  obtain ⟨k, hk⟩ := hm
  obtain ⟨d, hd⟩ := sub_tmod_dvd a b
  have hlt : Int.tmod a b < b := Int.tmod_lt_of_pos a hb
  by_contra hcon
  push_neg at hcon
  have hj : m - (a - Int.tmod a b) = b * (k - d) := by rw [hk, hd]; ring
  have hjpos : 0 < k - d := by
    rcases lt_trichotomy (k - d) 0 with h | h | h
    · exfalso
      have hneg : b * (k - d) < 0 := mul_neg_of_pos_of_neg hb h
      linarith
    · exfalso
      rw [h, mul_zero] at hj
      linarith
    · exact h
  have hge : b ≤ b * (k - d) := le_mul_of_one_le_right (le_of_lt hb) (by omega)
  linarith

/-- Truncated-remainder quantization is monotone across a gap of at least one
period. -/
lemma quant_mono {b a1 a2 : Int} (hb : 0 < b) (h : a1 + b ≤ a2) :
    a1 - Int.tmod a1 b ≤ a2 - Int.tmod a2 b := by
  apply quant_greatest hb (sub_tmod_dvd a1 b)
  have := tmod_gt_neg a1 hb
  omega

/-- The quantized revision computed on a cache miss from a clock value. -/
def missQuantized (rcr : RemoteClockRevisions) (now : Revision) : Int :=
  let crdbNow := now.intPart - rcr.FollowerReadDelayNanos
  if 0 < rcr.QuantizationNanos then
    crdbNow - Int.tmod crdbNow rcr.QuantizationNanos
  else crdbNow

/-- The controller state written by a successful cache-miss call. -/
def missState (rcr : RemoteClockRevisions) (localNow : Int) (now : Revision) :
    RemoteClockRevisions :=
  { rcr with
    revisionValidThrough := localNow +
      ((missQuantized rcr now + rcr.QuantizationNanos) -
        (now.intPart - rcr.FollowerReadDelayNanos)) + rcr.MaxRevisionStaleness,
    lastQuantizedRevision := missQuantized rcr now }

/-- Closed form of a successful cache-miss call of `OptimizedRevision`. -/
lemma OptimizedRevision_miss {rcr : RemoteClockRevisions} {localNow : Int}
    {nowFunc : Unit → Except String Revision} {now : Revision}
    (hmiss : ¬ localNow < rcr.revisionValidThrough)
    (hok : nowFunc () = .ok now) :
    rcr.OptimizedRevision localNow nowFunc =
      ((.clockNanos (missQuantized rcr now), none),
        missState rcr localNow now, 1) := by
  unfold RemoteClockRevisions.OptimizedRevision
  rw [if_neg hmiss, hok]
  rfl

/-! Concrete fixtures used by witness theorems. Field order:
QuantizationNanos, GCWindowNanos, FollowerReadDelayNanos,
MaxRevisionStaleness, lastQuantizedRevision, revisionValidThrough. -/

/-- A controller whose cached revision 9000 is valid through local time 100. -/
def hitRcr : RemoteClockRevisions := ⟨1000, 0, 100, 0, 9000, 100⟩

/-- A controller with an expired cache (valid through 0). -/
def missRcr : RemoteClockRevisions := ⟨1000, 5000, 100, 0, 0, 0⟩

/-- A clock that always fails. -/
def failClock : Unit → Except String Revision := fun _ => .error "backend unreachable"

/-- A clock reading the spec example value 10050ns. -/
def specClock : Unit → Except String Revision := fun _ => .ok (.clockNanos 10050)

/-- C3: when the current local time is before the cached revisionValidThrough
deadline, OptimizedRevision returns the cached lastQuantizedRevision with no
error, leaves the controller state unchanged, and invokes the backend clock
function zero times. -/
theorem C3_cache_hit (rcr : RemoteClockRevisions) (localNow : Int)
    (nowFunc : Unit → Except String Revision)
    (h : localNow < rcr.revisionValidThrough) :
    rcr.OptimizedRevision localNow nowFunc =
      ((.clockNanos rcr.lastQuantizedRevision, none), rcr, 0) := by
  unfold RemoteClockRevisions.OptimizedRevision
  rw [if_pos h]

/-- Witness for C3 at a concrete controller: localNow 0 is before the cached
deadline 100, and the call returns cached revision 9000 touching nothing. -/
theorem C3_cache_hit_witness :
    ((0 : Int) < hitRcr.revisionValidThrough) ∧
    hitRcr.OptimizedRevision 0 failClock =
      ((.clockNanos hitRcr.lastQuantizedRevision, none), hitRcr, 0) :=
  ⟨by decide, C3_cache_hit hitRcr 0 failClock (by decide)⟩

/-- C9: when the cache is expired and the backend clock fetch fails,
OptimizedRevision returns the NoRevision sentinel together with the
underlying error, and the controller state is exactly the state before the
call. -/
theorem C9_error_state_unchanged (rcr : RemoteClockRevisions) (localNow : Int)
    (nowFunc : Unit → Except String Revision) (e : String)
    (hmiss : ¬ localNow < rcr.revisionValidThrough)
    (herr : nowFunc () = .error e) :
    rcr.OptimizedRevision localNow nowFunc = ((.noRevision, some e), rcr, 1) := by
  unfold RemoteClockRevisions.OptimizedRevision
  rw [if_neg hmiss, herr]

/-- Witness for C9: expired cache, failing clock; the sentinel and the error
come back and the state is untouched. -/
theorem C9_error_state_unchanged_witness :
    (¬ (5 : Int) < missRcr.revisionValidThrough) ∧
    missRcr.OptimizedRevision 5 failClock =
      ((.noRevision, some "backend unreachable"), missRcr, 1) :=
  ⟨by decide, C9_error_state_unchanged missRcr 5 failClock "backend unreachable"
    (by decide) rfl⟩

/-- C10: CheckRevision never modifies the controller state, whatever the
revision argument and whatever the outcome. -/
theorem C10_check_revision_frame (rcr : RemoteClockRevisions)
    (nowFunc : Unit → Except String Revision) (revision : Revision) :
    (rcr.CheckRevision nowFunc revision).2.1 = rcr := by
  unfold RemoteClockRevisions.CheckRevision
  rcases nowFunc () with e | now
  · rfl
  · dsimp only
    split
    · rfl
    · split
      · rfl
      · rfl

/-- C2: with a non-negative GC window, CheckRevision propagates a clock-fetch
failure unchanged; on a successful clock read it succeeds exactly when
now - gcWindow <= revision <= now, fails RevisionStale exactly when
revision < now - gcWindow, and fails RevisionInFuture exactly when
revision > now. -/
theorem C2_check_revision_classification (rcr : RemoteClockRevisions)
    (nowFunc : Unit → Except String Revision) (revision : Revision)
    (hgc : 0 ≤ rcr.GCWindowNanos) :
    (∀ e, nowFunc () = .error e →
      rcr.CheckRevision nowFunc revision = (some (.clock e), rcr, 1)) ∧
    (∀ now, nowFunc () = .ok now →
      (((rcr.CheckRevision nowFunc revision).1 = none ↔
          now.intPart - rcr.GCWindowNanos ≤ revision.intPart ∧
            revision.intPart ≤ now.intPart) ∧
        ((rcr.CheckRevision nowFunc revision).1 =
            some (.invalidRevision revision .revisionStale) ↔
          revision.intPart < now.intPart - rcr.GCWindowNanos) ∧
        ((rcr.CheckRevision nowFunc revision).1 =
            some (.invalidRevision revision .revisionInFuture) ↔
          now.intPart < revision.intPart))) := by
  constructor
  · intro e he
    unfold RemoteClockRevisions.CheckRevision
    rw [he]
  · intro now hnow
    unfold RemoteClockRevisions.CheckRevision
    rw [hnow]
    dsimp only
    split
    · refine ⟨?_, ?_, ?_⟩ <;> simp_all <;> omega
    · split
      · refine ⟨?_, ?_, ?_⟩ <;> simp_all <;> omega
      · refine ⟨?_, ?_, ?_⟩ <;> simp_all <;> omega

/-- A clock reading exactly 10000ns, for the CheckRevision boundary example. -/
def clock10000 : Unit → Except String Revision := fun _ => .ok (.clockNanos 10000)

/-- Witness for C2 at the spec boundary example: gcWindow 5000, now 10000,
revision 4999 (which is stale). The theorem is applied at that input. -/
theorem C2_check_revision_classification_witness :
    ((0 : Int) ≤ missRcr.GCWindowNanos) ∧
    ((∀ e, clock10000 () = .error e →
      missRcr.CheckRevision clock10000 (.clockNanos 4999) =
        (some (.clock e), missRcr, 1)) ∧
    (∀ now, clock10000 () = .ok now →
      (((missRcr.CheckRevision clock10000 (.clockNanos 4999)).1 = none ↔
          now.intPart - missRcr.GCWindowNanos ≤ (Revision.clockNanos 4999).intPart ∧
            (Revision.clockNanos 4999).intPart ≤ now.intPart) ∧
        ((missRcr.CheckRevision clock10000 (.clockNanos 4999)).1 =
            some (.invalidRevision (.clockNanos 4999) .revisionStale) ↔
          (Revision.clockNanos 4999).intPart < now.intPart - missRcr.GCWindowNanos) ∧
        ((missRcr.CheckRevision clock10000 (.clockNanos 4999)).1 =
            some (.invalidRevision (.clockNanos 4999) .revisionInFuture) ↔
          now.intPart < (Revision.clockNanos 4999).intPart)))) :=
  ⟨by decide, C2_check_revision_classification missRcr clock10000
    (.clockNanos 4999) (by decide)⟩

/-- C4: on a successful cache-miss call, the revision returned is the one
cached, and the stored validity deadline is localNow plus
(quantized + quantizationPeriod) - effectiveNow plus maxRevisionStaleness. -/
theorem C4_validity_deadline (rcr : RemoteClockRevisions) (localNow : Int)
    (nowFunc : Unit → Except String Revision) (now : Revision)
    (hmiss : ¬ localNow < rcr.revisionValidThrough)
    (hok : nowFunc () = .ok now) :
    ∃ q : Int,
      (rcr.OptimizedRevision localNow nowFunc).1 = (.clockNanos q, none) ∧
      ((rcr.OptimizedRevision localNow nowFunc).2.1).lastQuantizedRevision = q ∧
      ((rcr.OptimizedRevision localNow nowFunc).2.1).revisionValidThrough =
        localNow + ((q + rcr.QuantizationNanos) -
          (now.intPart - rcr.FollowerReadDelayNanos)) + rcr.MaxRevisionStaleness := by
  rw [OptimizedRevision_miss hmiss hok]
  exact ⟨missQuantized rcr now, rfl, rfl, rfl⟩

/-- Witness for C4 at the spec example: quantized 9000, effectiveNow 9950, so
the new deadline is 0 + (10000 - 9950) + 0 = 50. -/
theorem C4_validity_deadline_witness :
    (¬ (0 : Int) < missRcr.revisionValidThrough) ∧
    (∃ q : Int,
      (missRcr.OptimizedRevision 0 specClock).1 = (.clockNanos q, none) ∧
      ((missRcr.OptimizedRevision 0 specClock).2.1).lastQuantizedRevision = q ∧
      ((missRcr.OptimizedRevision 0 specClock).2.1).revisionValidThrough =
        0 + ((q + missRcr.QuantizationNanos) -
          ((Revision.clockNanos 10050).intPart - missRcr.FollowerReadDelayNanos)) +
          missRcr.MaxRevisionStaleness) :=
  ⟨by decide, C4_validity_deadline missRcr 0 specClock (.clockNanos 10050)
    (by decide) rfl⟩

/-- A controller with Q = 1000ns and a follower delay of 600ns that exceeds
the clock reading used below, making effectiveNow negative. -/
def c1Rcr : RemoteClockRevisions := ⟨1000, 0, 600, 0, 0, 0⟩

/-- A clock reading 100ns. -/
def c1Clock : Unit → Except String Revision := fun _ => .ok (.clockNanos 100)

/-- C1 counterexample: Q = 1000, follower delay 600, clock reading 100, so
effectiveNow = -500. The greatest multiple of 1000 at most -500 is -1000,
yet the call (a cache miss) returns 0, which is not even at most
effectiveNow: the Go % operator truncates toward zero, so a negative
effective-now value is rounded up to the next multiple, not floored. -/
theorem C1_counterexample :
    (c1Rcr.OptimizedRevision 0 c1Clock).1 = (.clockNanos 0, none) ∧
    (1000 : Int) ∣ (-1000 : Int) ∧
    (-1000 : Int) ≤ (Revision.clockNanos 100).intPart - c1Rcr.FollowerReadDelayNanos ∧
    ¬ ((0 : Int) ≤ (Revision.clockNanos 100).intPart - c1Rcr.FollowerReadDelayNanos) :=
  ⟨rfl, ⟨-1, by decide⟩, by decide, by decide⟩

/-- C1 (amended): on a successful cache-miss call with quantization period
Q > 0, whenever the effective-now value (clock reading minus follower delay)
is non-negative, the returned revision is the greatest multiple of Q at most
effectiveNow; with Q = 0 the returned revision equals effectiveNow
unchanged. For a negative effective-now the Go % operator truncates toward
zero and the result can exceed effectiveNow. -/
theorem C1_quantization_floor (rcr : RemoteClockRevisions) (localNow : Int)
    (nowFunc : Unit → Except String Revision) (now : Revision)
    (hmiss : ¬ localNow < rcr.revisionValidThrough)
    (hok : nowFunc () = .ok now) :
    (0 < rcr.QuantizationNanos →
      0 ≤ now.intPart - rcr.FollowerReadDelayNanos →
      ∃ q : Int,
        (rcr.OptimizedRevision localNow nowFunc).1 = (.clockNanos q, none) ∧
        rcr.QuantizationNanos ∣ q ∧
        q ≤ now.intPart - rcr.FollowerReadDelayNanos ∧
        (∀ m : Int, rcr.QuantizationNanos ∣ m →
          m ≤ now.intPart - rcr.FollowerReadDelayNanos → m ≤ q)) ∧
    (rcr.QuantizationNanos = 0 →
      (rcr.OptimizedRevision localNow nowFunc).1 =
        (.clockNanos (now.intPart - rcr.FollowerReadDelayNanos), none)) := by
  rw [OptimizedRevision_miss hmiss hok]
  constructor
  · intro hQ heff
    refine ⟨missQuantized rcr now, rfl, ?_, ?_, ?_⟩
    · simp only [missQuantized, if_pos hQ]
      exact sub_tmod_dvd _ _
    · simp only [missQuantized, if_pos hQ]
      have h := Int.tmod_nonneg rcr.QuantizationNanos heff
      omega
    · intro m hm hme
      simp only [missQuantized, if_pos hQ]
      exact quant_greatest hQ hm hme
  · intro hQ0
    simp only [missQuantized, hQ0, lt_irrefl, if_false]

/-- Witness for the amended C1 at the spec example: Q = 1000ns, follower
delay 100ns, clock 10050ns, effectiveNow 9950 >= 0; the call returns exactly
9000. -/
theorem C1_quantization_floor_witness :
    (¬ (0 : Int) < missRcr.revisionValidThrough) ∧
    (missRcr.OptimizedRevision 0 specClock).1 = (.clockNanos 9000, none) ∧
    ((0 < missRcr.QuantizationNanos →
      0 ≤ (Revision.clockNanos 10050).intPart - missRcr.FollowerReadDelayNanos →
      ∃ q : Int,
        (missRcr.OptimizedRevision 0 specClock).1 = (.clockNanos q, none) ∧
        missRcr.QuantizationNanos ∣ q ∧
        q ≤ (Revision.clockNanos 10050).intPart - missRcr.FollowerReadDelayNanos ∧
        (∀ m : Int, missRcr.QuantizationNanos ∣ m →
          m ≤ (Revision.clockNanos 10050).intPart - missRcr.FollowerReadDelayNanos →
          m ≤ q)) ∧
    (missRcr.QuantizationNanos = 0 →
      (missRcr.OptimizedRevision 0 specClock).1 =
        (.clockNanos ((Revision.clockNanos 10050).intPart -
          missRcr.FollowerReadDelayNanos), none))) :=
  ⟨by decide, rfl,
    C1_quantization_floor missRcr 0 specClock (.clockNanos 10050) (by decide) rfl⟩

/-- A clock reading 11050ns, one quantization period past 10050ns. -/
def laterClock : Unit → Except String Revision := fun _ => .ok (.clockNanos 11050)

/-- C8: across two sequential successful cache-miss calls on the same
controller, with the backend clock advanced by at least one quantization
period and the second call past the cached validity deadline, the second
revision is at least the first. -/
theorem C8_monotonicity (rcr : RemoteClockRevisions) (localNow1 localNow2 : Int)
    (f1 f2 : Unit → Except String Revision) (t1 t2 : Revision)
    (hQ : 0 ≤ rcr.QuantizationNanos)
    (hmiss1 : ¬ localNow1 < rcr.revisionValidThrough)
    (h1 : f1 () = .ok t1)
    (hmiss2 : ¬ localNow2 <
      ((rcr.OptimizedRevision localNow1 f1).2.1).revisionValidThrough)
    (h2 : f2 () = .ok t2)
    (hadv : t1.intPart + rcr.QuantizationNanos ≤ t2.intPart) :
    ∃ r1 r2 : Int,
      (rcr.OptimizedRevision localNow1 f1).1 = (.clockNanos r1, none) ∧
      (((rcr.OptimizedRevision localNow1 f1).2.1).OptimizedRevision
        localNow2 f2).1 = (.clockNanos r2, none) ∧
      r1 ≤ r2 := by
  have e1 := OptimizedRevision_miss hmiss1 h1
  rw [e1] at hmiss2
  have hmiss2' : ¬ localNow2 < (missState rcr localNow1 t1).revisionValidThrough :=
    hmiss2
  have e2 := OptimizedRevision_miss hmiss2' h2
  refine ⟨missQuantized rcr t1, missQuantized (missState rcr localNow1 t1) t2,
    ?_, ?_, ?_⟩
  · rw [e1]
  · rw [e1]
    dsimp only
    rw [e2]
  · have hconf1 : (missState rcr localNow1 t1).QuantizationNanos =
      rcr.QuantizationNanos := rfl
    have hconf2 : (missState rcr localNow1 t1).FollowerReadDelayNanos =
      rcr.FollowerReadDelayNanos := rfl
    simp only [missQuantized, hconf1, hconf2]
    rcases lt_or_le 0 rcr.QuantizationNanos with hpos | hle
    · rw [if_pos hpos, if_pos hpos]
      exact quant_mono hpos (by omega)
    · have hz : rcr.QuantizationNanos = 0 := le_antisymm hle hQ
      rw [hz]
      simp only [lt_irrefl, if_false]
      omega

/-- Witness for C8: first call reads 10050ns (returns 9000, deadline 50),
second call at local time 100 reads 11050ns (returns 10000); 9000 <= 10000. -/
theorem C8_monotonicity_witness :
    ((0 : Int) ≤ missRcr.QuantizationNanos) ∧
    (¬ (0 : Int) < missRcr.revisionValidThrough) ∧
    (¬ (100 : Int) <
      ((missRcr.OptimizedRevision 0 specClock).2.1).revisionValidThrough) ∧
    ((Revision.clockNanos 10050).intPart + missRcr.QuantizationNanos ≤
      (Revision.clockNanos 11050).intPart) ∧
    (∃ r1 r2 : Int,
      (missRcr.OptimizedRevision 0 specClock).1 = (.clockNanos r1, none) ∧
      (((missRcr.OptimizedRevision 0 specClock).2.1).OptimizedRevision
        100 laterClock).1 = (.clockNanos r2, none) ∧
      r1 ≤ r2) :=
  ⟨by decide, by decide, by decide, by decide,
    C8_monotonicity missRcr 0 100 specClock laterClock (.clockNanos 10050)
      (.clockNanos 11050) (by decide) (by decide) rfl (by decide) rfl (by decide)⟩

/-- A row that scans as row columns and whose payload decodes successfully. -/
def RowDecodes {NsDef : Type} (unmarshal : List Nat → Except String NsDef)
    (r : RowOutcome) : Prop :=
  ∃ config txID d, r = .row config txID ∧ unmarshal config = .ok d

/-- A prefix of rows that all decode contributes a decoded prefix and leaves
the loop result determined by the remaining rows. -/
lemma loop_append_of_decodes {NsDef : Type}
    (unmarshal : List Nat → Except String NsDef) (good : List RowOutcome)
    (hgood : ∀ r ∈ good, RowDecodes unmarshal r) :
    ∃ pre, loadAllNamespacesLoop unmarshal good = .ok pre ∧
      ∀ rest, loadAllNamespacesLoop unmarshal (good ++ rest) =
        (loadAllNamespacesLoop unmarshal rest).map (fun l => pre ++ l) := by
  induction good with
  | nil =>
    refine ⟨[], rfl, fun rest => ?_⟩
    rcases h : loadAllNamespacesLoop unmarshal rest with e | l
    · simp [Except.map, h]
    · simp [Except.map, h]
  | cons r good ih =>
    obtain ⟨config, txID, d, hr, hd⟩ := hgood r (by simp)
    obtain ⟨pre, hpre, happ⟩ := ih (fun r hr => hgood r (by simp [hr]))
    subst hr
    refine ⟨{ Definition := d, LastWrittenRevision := .forTransactionID txID } :: pre,
      ?_, fun rest => ?_⟩
    · simp only [loadAllNamespacesLoop]
      rw [hd, hpre]
    · show loadAllNamespacesLoop unmarshal (.row config txID :: (good ++ rest)) = _
      simp only [loadAllNamespacesLoop]
      rw [hd, happ rest]
      rcases h : loadAllNamespacesLoop unmarshal rest with e | l <;>
        simp [Except.map]

/-- When every row decodes, the loop succeeds with one entry per row, each
carrying the decoded definition and the revision of the row transaction id. -/
lemma loop_ok_of_decodes {NsDef : Type}
    (unmarshal : List Nat → Except String NsDef) (rows : List RowOutcome)
    (h : ∀ r ∈ rows, RowDecodes unmarshal r) :
    ∃ defs, loadAllNamespacesLoop unmarshal rows = .ok defs ∧
      List.Forall₂ (fun (r : RowOutcome) (nsd : RevisionedNamespace NsDef) =>
        ∃ config txID, r = .row config txID ∧
          unmarshal config = .ok nsd.Definition ∧
          nsd.LastWrittenRevision = .forTransactionID txID) rows defs := by
  induction rows with
  | nil => exact ⟨[], rfl, .nil⟩
  | cons r rows ih =>
    obtain ⟨config, txID, d, hr, hd⟩ := h r (by simp)
    obtain ⟨defs, hdefs, hrel⟩ := ih (fun r hr => h r (by simp [hr]))
    subst hr
    refine ⟨{ Definition := d, LastWrittenRevision := .forTransactionID txID } :: defs,
      ?_, .cons ⟨config, txID, rfl, hd, rfl⟩ hrel⟩
    simp only [loadAllNamespacesLoop]
    rw [hd, hdefs]

/-- C5: for any name whose single-row query matches zero rows,
ReadNamespaceByName returns the triple of nil definition, the NoRevision
sentinel, and the NamespaceNotFound error carrying that name, with no
additional wrapping; a backend failure of the same query is, by contrast,
wrapped with the read-config operation context. -/
theorem C5_not_found_unwrapped (NsDef : Type) (nsName : String)
    (unmarshal : List Nat → Except String NsDef) (msg : String) :
    (ReadNamespaceByName nsName (.ok ()) none .noRows unmarshal =
      (none, .noRevision, some (.namespaceNotFound nsName))) ∧
    (ReadNamespaceByName nsName (.ok ()) none (.failure msg) unmarshal =
      (none, .noRevision,
        some (.wrapped errUnableToReadConfig (.backend msg)))) :=
  ⟨rfl, rfl⟩

/-- C6: LookupNamespacesWithNames on an empty name list returns an empty
result and no error while acquiring zero transactions and executing zero
queries, for every backend; on a non-empty list (with the transaction
acquired) the query it executes carries a disjunction of one
namespace-equality predicate per supplied name. -/
theorem C6_lookup_with_names (NsDef : Type) (n : String) (rest : List String)
    (txSource : Except String Unit) (toSqlErr : Option String)
    (runQuery : Pred → Except String (List RowOutcome × Option String))
    (unmarshal : List Nat → Except String NsDef) :
    (LookupNamespacesWithNames ([] : List String) txSource toSqlErr runQuery
        unmarshal = (.ok [], 0, 0, none)) ∧
    ((LookupNamespacesWithNames (n :: rest) (.ok ()) toSqlErr runQuery
        unmarshal).2.2.2 =
      some (.orClause ((n :: rest).map .eqNamespace))) := by
  refine ⟨rfl, ?_⟩
  unfold LookupNamespacesWithNames
  rw [if_neg (by simp)]
  dsimp only
  split <;> rfl

/-- C7: ListAllNamespaces is all-or-nothing. With the transaction acquired
and the query executed, it aborts on the first row-scan failure, the first
payload-decode failure, or a terminal row-iteration error, in each case
returning only an error wrapped with the listing context and discarding any
already-decoded prefix; when every row decodes and iteration ends cleanly it
returns exactly one RevisionedNamespace per row, in order, each carrying the
revision converted from the transaction id of its row. -/
theorem C7_list_all_or_nothing (NsDef : Type)
    (unmarshal : List Nat → Except String NsDef)
    (good rows rest : List RowOutcome) (msg dmsg emsg : String)
    (config : List Nat) (txID : Nat) (iterErr iterErr2 : Option String)
    (hgood : ∀ r ∈ good, RowDecodes unmarshal r)
    (hrows : ∀ r ∈ rows, RowDecodes unmarshal r)
    (hdec : unmarshal config = .error dmsg) :
    (ListAllNamespaces (.ok ()) none
        (.ok (good ++ .scanFailure msg :: rest, iterErr)) unmarshal =
      .error (.wrapped errUnableToListNamespaces (.backend msg))) ∧
    (ListAllNamespaces (.ok ()) none
        (.ok (good ++ .row config txID :: rest, iterErr2)) unmarshal =
      .error (.wrapped errUnableToListNamespaces
        (.wrapped errUnableToReadConfig (.decodeFailure dmsg)))) ∧
    (ListAllNamespaces (.ok ()) none (.ok (rows, some emsg)) unmarshal =
      .error (.wrapped errUnableToListNamespaces (.backend emsg))) ∧
    (∃ defs,
      ListAllNamespaces (.ok ()) none (.ok (rows, none)) unmarshal = .ok defs ∧
      List.Forall₂ (fun (r : RowOutcome) (nsd : RevisionedNamespace NsDef) =>
        ∃ c t, r = .row c t ∧ unmarshal c = .ok nsd.Definition ∧
          nsd.LastWrittenRevision = .forTransactionID t) rows defs) := by
  obtain ⟨pre, hpre, happ⟩ := loop_append_of_decodes unmarshal good hgood
  obtain ⟨defs, hdefs, hrel⟩ := loop_ok_of_decodes unmarshal rows hrows
  refine ⟨?_, ?_, ?_, defs, ?_, hrel⟩
  · have h1 : loadAllNamespacesLoop unmarshal (good ++ .scanFailure msg :: rest) =
        .error (.backend msg) := by
      rw [happ]
      rfl
    unfold ListAllNamespaces loadAllNamespaces
    dsimp only
    rw [h1]
  · have h2 : loadAllNamespacesLoop unmarshal (good ++ .row config txID :: rest) =
        .error (.wrapped errUnableToReadConfig (.decodeFailure dmsg)) := by
      rw [happ]
      show Except.map _ (loadAllNamespacesLoop unmarshal (.row config txID :: rest)) = _
      simp only [loadAllNamespacesLoop]
      rw [hdec]
      rfl
    unfold ListAllNamespaces loadAllNamespaces
    dsimp only
    rw [h2]
  · unfold ListAllNamespaces loadAllNamespaces
    dsimp only
    rw [hdefs]
  · unfold ListAllNamespaces loadAllNamespaces
    dsimp only
    rw [hdefs]

/-- A concrete payload codec for witnesses over NsDef = Nat: an empty byte
payload is malformed, any other payload decodes to its length. -/
def natUnmarshal : List Nat → Except String Nat
  | [] => .error "empty payload"
  | c => .ok c.length

/-- Witness for C7 with one decodable row: a scan failure aborts, a
malformed payload aborts, a terminal iteration error aborts (each wrapped
with the listing context), and the clean run returns one entry per row. -/
theorem C7_list_all_or_nothing_witness :
    (∀ r ∈ ([] : List RowOutcome), RowDecodes natUnmarshal r) ∧
    (∀ r ∈ [RowOutcome.row [1] 7], RowDecodes natUnmarshal r) ∧
    natUnmarshal [] = .error "empty payload" ∧
    ((ListAllNamespaces (.ok ()) none
        (.ok ([.scanFailure "scan boom"], none)) natUnmarshal =
      .error (.wrapped errUnableToListNamespaces (.backend "scan boom"))) ∧
    (ListAllNamespaces (.ok ()) none
        (.ok ([.row [] 5], some "late")) natUnmarshal =
      .error (.wrapped errUnableToListNamespaces
        (.wrapped errUnableToReadConfig (.decodeFailure "empty payload")))) ∧
    (ListAllNamespaces (.ok ()) none
        (.ok ([RowOutcome.row [1] 7], some "iter boom")) natUnmarshal =
      .error (.wrapped errUnableToListNamespaces (.backend "iter boom"))) ∧
    (∃ defs,
      ListAllNamespaces (.ok ()) none
          (.ok ([RowOutcome.row [1] 7], none)) natUnmarshal = .ok defs ∧
      List.Forall₂ (fun (r : RowOutcome) (nsd : RevisionedNamespace Nat) =>
        ∃ c t, r = .row c t ∧ natUnmarshal c = .ok nsd.Definition ∧
          nsd.LastWrittenRevision = .forTransactionID t)
        [RowOutcome.row [1] 7] defs)) := by
  have hgood : ∀ r ∈ ([] : List RowOutcome), RowDecodes natUnmarshal r := by
    intro r hr
    simp at hr
  have hrows : ∀ r ∈ [RowOutcome.row [1] 7], RowDecodes natUnmarshal r := by
    intro r hr
    rw [List.mem_singleton] at hr
    subst hr
    exact ⟨[1], 7, 1, rfl, rfl⟩
  exact ⟨hgood, hrows, rfl,
    C7_list_all_or_nothing Nat natUnmarshal [] [RowOutcome.row [1] 7] []
      "scan boom" "empty payload" "iter boom" [] 5 none (some "late")
      hgood hrows rfl⟩

end SpiceDB
